import Mathlib

/-!
# ApplicationsTracker — embedding of the frontend handlers

Shallow embedding of the job-application tracker's frontend (React/JSX).
Each handler that talks to the backend is modelled as a pure function
from its inputs (component state, the result of the scrape call, the
current time) to the list of API requests it issues plus the resulting
component state.  Machine-level details are represented as follows:

* deadline dates stored on a `Deadline` row are compared in the source
  via `new Date(a) - new Date(b)`, i.e. by their numeric timestamp; we
  model a stored `deadline_date` as that timestamp (`Nat`, epoch ms);
* `new Date(s).toISOString()` applied to a user-entered date string is
  an uninterpreted normalisation, passed in as a parameter `toIso`;
* JavaScript string falsiness (`undefined`/`null`/`''` are falsy) is
  modelled with `Option String` and the `truthy` test; `a || b` on
  strings is `jsOr`;
* `Array.prototype.sort` with an ascending date comparator is modelled
  by `List.insertionSort` (a stable sort, like the engine's).
-/

namespace AppTracker

/-- The JavaScript guard `!s.trim()`: true exactly when trimming leaves
the empty string, i.e. every character of `s` is whitespace. -/
def isBlank (s : String) : Bool :=
  s.data.all Char.isWhitespace

/-- JavaScript truthiness of a possibly-absent string:
`undefined`/`null`/`""` are falsy, everything else truthy. -/
def truthy : Option String → Bool
  | none => false
  | some s => s ≠ ""

/-- JavaScript `a || b` for a possibly-absent string `a` and a present
default `b`: yields `b` exactly when `a` is falsy. -/
def jsOr (a : Option String) (b : String) : String :=
  match a with
  | none => b
  | some s => if s = "" then b else s

/-- A stored deadline row as the frontend receives it from
`GET /applications` (`deadline_date` as its numeric timestamp, see
module comment). -/
structure Deadline where
  id : Nat
  deadline_type : String
  deadline_date : Nat
  description : String
  is_completed : Bool
deriving DecidableEq, Repr

/-- A stored note row. -/
structure Note where
  id : Nat
  content : String
deriving DecidableEq, Repr

/-- A stored application row together with its owned deadlines, as the
list endpoints return it (an absent `deadlines` field is the empty
list). -/
structure Application where
  id : Nat
  company_name : String
  position_title : String
  status : String
  deadlines : List Deadline
deriving DecidableEq, Repr

/-- The form/scrape record handled by `ApplicationModal`: every field
may be absent (`undefined`/`null`) or empty. -/
structure ScrapedData where
  company_name : Option String
  position_title : Option String
  job_url : Option String
  location : Option String
  salary : Option String
  description : Option String
  requirements : Option String
  notes : Option String
  status : Option String
deriving DecidableEq, Repr

/-- The record returned by `api.scrapeUrl` in `Home.handleScrape`. -/
structure JobData where
  company_name : Option String
  position_title : Option String
  location : Option String
  salary : Option String
  job_url : Option String
  description : Option String
  requirements : Option String
  clean_text_content : Option String
  ai_thoughts : Option String
  application_deadline : Option String
deriving DecidableEq, Repr

/-- Payload of `api.createApplication` in `Home.handleScrape`. -/
structure AppPayload where
  company_name : Option String
  position_title : Option String
  location : Option String
  salary : Option String
  job_url : String
  status : String
deriving DecidableEq, Repr

/-- Payload of `api.createJobDetails` in `Home.handleScrape`. -/
structure JobDetailsPayload where
  description : Option String
  requirements : Option String
  clean_text_content : Option String
  ai_thoughts : Option String
deriving DecidableEq, Repr

/-- Payload of `api.createDeadline` (the user-entered or scraped date
after `new Date(·).toISOString()` normalisation). -/
structure DeadlinePayload where
  deadline_type : String
  deadline_date : String
  description : String
  is_completed : Bool
deriving DecidableEq, Repr

/-- The backend requests the frontend can issue. -/
inductive Request where
  | createApplication (p : AppPayload)
  | createApplicationForm (data : ScrapedData) (dateApplied : String)
  | updateApplicationForm (id : Nat) (data : ScrapedData)
  | updateApplicationStatus (status : String)
  | deleteApplication
  | createJobDetails (p : JobDetailsPayload)
  | createDeadline (p : DeadlinePayload)
  | updateDeadline (deadlineId : Nat) (is_completed : Bool)
  | deleteDeadline (deadlineId : Nat)
  | createNote (content : String)
  | updateNote (noteId : Nat) (content : String)
  | deleteNote (noteId : Nat)
deriving DecidableEq, Repr

/-! ## ApplicationModal -/

/-- The modal's local state: the URL input, the form data (absent until
a scrape succeeds, fails, or an application is being edited), and the
error banner. -/
structure ModalState where
  jobUrl : String
  scrapedData : Option ScrapedData
  error : String
deriving DecidableEq, Repr

/-- `ApplicationModal.handleScrapeUrl`: a blank URL only sets the error
banner; a failed scrape shows the failure message with a manual-entry
hint and pre-fills the form with empty fields except `job_url`; a
successful scrape installs the scraped record and clears the error. -/
def handleScrapeUrl (st : ModalState) (res : Except String ScrapedData) : ModalState :=
  if isBlank st.jobUrl then
    { st with error := "Please enter a valid URL" }
  else
    match res with
    | .ok data => { st with scrapedData := some data, error := "" }
    | .error msg =>
        { st with
          error := msg ++ ". You can still add manually.",
          scrapedData := some
            { company_name := some ""
              position_title := some ""
              location := some ""
              salary := some ""
              description := some ""
              requirements := some ""
              notes := some ""
              job_url := some st.jobUrl
              status := none } }

/-- Outcome of a save attempt in the modal: either rejected with an
error banner (no `onSave` call), or handed to `onSave` with the status
defaulted. -/
inductive SaveOutcome where
  | rejected (error : String)
  | saved (data : ScrapedData)
deriving DecidableEq, Repr

/-- `ApplicationModal.handleSave`: reject when the (possibly absent)
form data has a falsy company name or position title; otherwise pass
the form data on with `status := scrapedData.status || 'Applied'`. -/
def handleSave (sd : Option ScrapedData) : SaveOutcome :=
  match sd with
  | none => .rejected "Company name and position title are required"
  | some d =>
      if !truthy d.company_name || !truthy d.position_title then
        .rejected "Company name and position title are required"
      else
        .saved { d with status := some (jsOr d.status "Applied") }

/-- `Dashboard.handleSaveApplication`: with an application under edit,
issue an update with the form data; otherwise issue a create with the
form data plus `date_applied := new Date().toISOString()`. -/
def handleSaveApplication (editingApp : Option Nat) (nowIso : String)
    (data : ScrapedData) : List Request :=
  match editingApp with
  | some appId => [.updateApplicationForm appId data]
  | none => [.createApplicationForm data nowIso]

/-- The modal save flow as the parent sees it: `handleSave` either
rejects (no request) or feeds `onSave = handleSaveApplication`. -/
def modalSaveFlow (editingApp : Option Nat) (nowIso : String)
    (sd : Option ScrapedData) : List Request × String :=
  match handleSave sd with
  | .rejected e => ([], e)
  | .saved data => (handleSaveApplication editingApp nowIso data, "")

/-! ## Home -/

/-- Result of `Home.handleScrape`: the requests issued and the error
banner. -/
structure HomeScrapeResult where
  requests : List Request
  error : String
deriving DecidableEq, Repr

/-- `Home.handleScrape`: a blank URL only sets the error banner; a
failed scrape sets the error to the failure message and issues nothing;
a successful scrape issues a create with status `'Applied'`, then job
details when any of description/requirements/ai_thoughts is truthy,
then an `'application'` deadline when `application_deadline` is
truthy. -/
def handleScrape (toIso : String → String) (url : String)
    (scrape : Except String JobData) : HomeScrapeResult :=
  if isBlank url then
    { requests := [], error := "Please enter a job URL" }
  else
    match scrape with
    | .error msg => { requests := [], error := msg }
    | .ok jobData =>
        { error := ""
          requests :=
            [.createApplication
              { company_name := jobData.company_name
                position_title := jobData.position_title
                location := jobData.location
                salary := jobData.salary
                job_url := jsOr jobData.job_url url
                status := "Applied" }]
            ++ (if truthy jobData.description || truthy jobData.requirements
                  || truthy jobData.ai_thoughts then
                  [.createJobDetails
                    { description := jobData.description
                      requirements := jobData.requirements
                      clean_text_content := jobData.clean_text_content
                      ai_thoughts := jobData.ai_thoughts }]
                else [])
            ++ (match jobData.application_deadline with
                | none => []
                | some d =>
                    if d = "" then []
                    else
                      [.createDeadline
                        { deadline_type := "application"
                          deadline_date := toIso d
                          description := "Application deadline"
                          is_completed := false }]) }

/-! ## JobDetail -/

/-- `JobDetail.handleAddNote`: a blank (empty or whitespace-only)
content issues nothing; otherwise the content is sent verbatim. -/
def handleAddNote (noteContent : String) : List Request :=
  if isBlank noteContent then [] else [.createNote noteContent]

/-- `JobDetail.handleUpdateNote`: same blank-content guard as
`handleAddNote`, sending the content verbatim on the given note. -/
def handleUpdateNote (noteId : Nat) (noteContent : String) : List Request :=
  if isBlank noteContent then [] else [.updateNote noteId noteContent]

/-- The deadline form's local state (`JobDetail.newDeadline`):
`deadline_date` is the raw string of the `datetime-local` input. -/
structure NewDeadline where
  deadline_type : String
  deadline_date : String
  description : String
deriving DecidableEq, Repr

/-- Initial deadline form state: type `'application'`, empty date and
description. -/
def initialNewDeadline : NewDeadline :=
  { deadline_type := "application", deadline_date := "", description := "" }

/-- The values of the deadline-type `<select>` in `JobDetail`. -/
def deadlineTypeOptions : List String :=
  ["application", "interview", "assessment", "follow_up", "decision", "offer_response"]

/-- The deadline form states reachable in `JobDetail`: from the initial
state, the type is only ever set to a `<select>` option value, while
date and description are free-form inputs. -/
inductive DeadlineFormReachable : NewDeadline → Prop where
  | init : DeadlineFormReachable initialNewDeadline
  | setType {nd : NewDeadline} {t : String} :
      DeadlineFormReachable nd → t ∈ deadlineTypeOptions →
      DeadlineFormReachable { nd with deadline_type := t }
  | setDate {nd : NewDeadline} (s : String) :
      DeadlineFormReachable nd → DeadlineFormReachable { nd with deadline_date := s }
  | setDescription {nd : NewDeadline} (s : String) :
      DeadlineFormReachable nd → DeadlineFormReachable { nd with description := s }

/-- `JobDetail.handleAddDeadline`: an empty date issues nothing;
otherwise create the deadline with the form's type and description,
the ISO-normalised date, and `is_completed := false`. -/
def handleAddDeadline (toIso : String → String) (nd : NewDeadline) : List Request :=
  if nd.deadline_date = "" then []
  else
    [.createDeadline
      { deadline_type := nd.deadline_type
        deadline_date := toIso nd.deadline_date
        description := nd.description
        is_completed := false }]

/-- `JobDetail.handleToggleDeadline`: send an update whose
`is_completed` is the negation of the currently stored flag. -/
def handleToggleDeadline (d : Deadline) : List Request :=
  [.updateDeadline d.id (!d.is_completed)]

/-- Modelled from the spec: the Tracking Store (backend, not under the
frontend sources) applies an `is_completed` update to a deadline row by
setting that flag. -/
def applyDeadlineUpdate (d : Deadline) (b : Bool) : Deadline :=
  { d with is_completed := b }

/-- One user toggle as reflected in the store: the stored row after the
update sent by `handleToggleDeadline`. -/
def toggleOnce (d : Deadline) : Deadline :=
  applyDeadlineUpdate d (!d.is_completed)

/-- Modelled from the spec: the Tracking Store's note CRUD (backend,
not under the frontend sources) — create appends, update rewrites the
matching row's content, delete removes it; nothing else touches
notes. -/
def applyNoteRequest (freshId : Nat) (notes : List Note) : Request → List Note
  | .createNote c => notes ++ [{ id := freshId, content := c }]
  | .updateNote nid c => notes.map (fun n => if n.id = nid then { n with content := c } else n)
  | .deleteNote nid => notes.filter (fun n => n.id ≠ nid)
  | _ => notes

/-- `JobDetail.formatDate`-style pure helper actually used for overdue
badges: `Math.ceil((deadline_date - now) / 86400000)` with JavaScript's
real division, i.e. a ceiling division on the millisecond difference
(shared verbatim by `JobDetail.getDaysUntilDeadline`,
`AllApplications.getDaysUntilDeadline` and `Home.getDeadlineStatus`). -/
def getDaysUntilDeadline (now : Int) (d : Deadline) : Int :=
  -((-(((d.deadline_date : Int)) - now)).fdiv 86400000)

/-- The user-triggered operations of the `JobDetail` page (one per
handler that calls the API), plus `render d`, the pure rendering of a
deadline row (which computes its overdue badge and calls nothing). -/
inductive JobDetailOp where
  | updateStatus (newStatus : String)
  | deleteApplication
  | addNote (content : String)
  | updateNote (noteId : Nat) (content : String)
  | deleteNote (noteId : Nat)
  | addDeadline (nd : NewDeadline)
  | toggleDeadline (d : Deadline)
  | deleteDeadline (deadlineId : Nat)
  | render (d : Deadline)

/-- The requests each `JobDetail` operation issues, at current time
`now` (no handler reads the clock; only the pure overdue computation
does). -/
def jobDetailRequests (toIso : String → String) (now : Int) : JobDetailOp → List Request
  | .updateStatus s => [.updateApplicationStatus s]
  | .deleteApplication => [.deleteApplication]
  | .addNote c => handleAddNote c
  | .updateNote nid c => handleUpdateNote nid c
  | .deleteNote nid => [.deleteNote nid]
  | .addDeadline nd => handleAddDeadline toIso nd
  | .toggleDeadline d => handleToggleDeadline d
  | .deleteDeadline did => [.deleteDeadline did]
  | .render _ => []

/-! ## Deadline ordering: AllApplications and Home -/

/-- Ascending order on stored deadline dates, the comparator
`(a, b) => new Date(a.deadline_date) - new Date(b.deadline_date)`. -/
def dateLe (a b : Deadline) : Prop :=
  a.deadline_date ≤ b.deadline_date

instance : DecidableRel dateLe := fun a b => Nat.decLe _ _

instance : IsTotal Deadline dateLe := ⟨fun a b => Nat.le_total _ _⟩

instance : IsTrans Deadline dateLe := ⟨fun _ _ _ h h' => Nat.le_trans h h'⟩

instance : IsRefl Deadline dateLe := ⟨fun _ => Nat.le_refl _⟩

/-- The `'deadline'` sort key of
`AllApplications.filterAndSortApplications`:
`a.deadlines?.find((d) => !d.is_completed)` — the first uncompleted
deadline in stored list order. -/
def sortKeyDeadline (ds : List Deadline) : Option Deadline :=
  ds.find? (fun d => !d.is_completed)

/-- `AllApplications.getNextDeadline` (also the per-application step of
`Home.fetchUpcomingDeadlines`): among the uncompleted deadlines, the
one with the earliest `deadline_date` (the head after sorting by date
ascending), or nothing. -/
def getNextDeadline (ds : List Deadline) : Option Deadline :=
  if ds.isEmpty then none
  else (List.insertionSort dateLe (ds.filter (fun d => !d.is_completed))).head?

/-- An entry of the home page's upcoming-deadlines list:
`{ ...app, nextDeadline }`. -/
structure AppWithNext where
  app : Application
  nextDeadline : Deadline
deriving DecidableEq, Repr

/-- Ascending order of upcoming-deadline entries by the date of their
attached next deadline. -/
def upcomingLe (x y : AppWithNext) : Prop :=
  x.nextDeadline.deadline_date ≤ y.nextDeadline.deadline_date

instance : DecidableRel upcomingLe := fun a b => Nat.decLe _ _

instance : IsTotal AppWithNext upcomingLe := ⟨fun a b => Nat.le_total _ _⟩

instance : IsTrans AppWithNext upcomingLe := ⟨fun _ _ _ h h' => Nat.le_trans h h'⟩

/-- `Home.fetchUpcomingDeadlines`: keep applications with a non-empty
deadlines list, attach to each its earliest uncompleted deadline (drop
it when all are completed), sort by that deadline's date ascending, and
keep the first 10. -/
def fetchUpcomingDeadlines (apps : List Application) : List AppWithNext :=
  (List.insertionSort upcomingLe
    ((apps.filter (fun app => !app.deadlines.isEmpty)).filterMap
      (fun app =>
        ((List.insertionSort dateLe
            (app.deadlines.filter (fun d => !d.is_completed))).head?).map
          (fun nd => { app := app, nextDeadline := nd })))).take 10


/-! ## Helper lemmas -/

/-- `find?` is the head of the filtered list. -/
theorem find_eq_head_filter {α : Type} (p : α → Bool) (l : List α) :
    l.find? p = (l.filter p).head? := by
  induction l with
  | nil => rfl
  | cons a t ih =>
    cases h : p a
    · rw [List.find?_cons_of_neg _ (by simp [h]),
        List.filter_cons_of_neg (by simp [h]), ih]
    · rw [List.find?_cons_of_pos _ (by simp [h]),
        List.filter_cons_of_pos (by simp [h]), List.head?_cons]

/-- The head (via `head?`) of a list is a member. -/
theorem head_eq_some_mem {α : Type} {l : List α} {a : α}
    (h : l.head? = some a) : a ∈ l := by
  cases l with
  | nil => exact absurd h (by simp)
  | cons x t =>
    simp only [List.head?_cons, Option.some.injEq] at h
    exact h ▸ List.mem_cons_self x t

/-- In a list sorted by a reflexive relation, the head (via `head?`)
is related to every member. -/
theorem sorted_head_rel_mem {α : Type} {r : α → α → Prop} [IsRefl α r]
    {l : List α} {a b : α} (hs : List.Sorted r l) (h : l.head? = some a)
    (hb : b ∈ l) : r a b := by
  cases l with
  | nil => exact absurd h (by simp)
  | cons x t =>
    simp only [List.head?_cons, Option.some.injEq] at h
    subst h
    rcases List.mem_cons.1 hb with rfl | hb
    · exact IsRefl.refl b
    · exact List.rel_of_sorted_cons hs b hb

/-- The request list of a successful `Home.handleScrape`, spelled out. -/
theorem handleScrape_ok_requests (toIso : String → String) (url : String)
    (jd : JobData) (hurl : isBlank url = false) :
    (handleScrape toIso url (Except.ok jd)).requests =
      [Request.createApplication
        { company_name := jd.company_name
          position_title := jd.position_title
          location := jd.location
          salary := jd.salary
          job_url := jsOr jd.job_url url
          status := "Applied" }]
      ++ (if truthy jd.description || truthy jd.requirements
            || truthy jd.ai_thoughts then
            [Request.createJobDetails
              { description := jd.description
                requirements := jd.requirements
                clean_text_content := jd.clean_text_content
                ai_thoughts := jd.ai_thoughts }]
          else [])
      ++ (match jd.application_deadline with
          | none => []
          | some d =>
              if d = "" then []
              else
                [Request.createDeadline
                  { deadline_type := "application"
                    deadline_date := toIso d
                    description := "Application deadline"
                    is_completed := false }]) := by
  unfold handleScrape
  rw [hurl]
  simp

/-! ## Claims -/

/-- C1: a save attempt from the application form is rejected with an
error message and issues no create or update request when the company
name or the position title is absent/empty; when both are non-empty,
the create request (no application being under edit) is issued with the
entered fields, the status defaulted to `'Applied'`. -/
theorem save_requires_company_and_title (editingApp : Option Nat) (nowIso : String)
    (sd : Option ScrapedData) :
    ((truthy (sd.bind ScrapedData.company_name) = false ∨
        truthy (sd.bind ScrapedData.position_title) = false) →
      modalSaveFlow editingApp nowIso sd =
        ([], "Company name and position title are required")) ∧
    (∀ d : ScrapedData, sd = some d →
      truthy d.company_name = true → truthy d.position_title = true →
      modalSaveFlow none nowIso sd =
        ([Request.createApplicationForm
            { d with status := some (jsOr d.status "Applied") } nowIso], "")) := by
  constructor
  · intro h
    match sd with
    | none => rfl
    | some d =>
      simp only [Option.some_bind] at h
      rcases h with h | h <;>
        simp [modalSaveFlow, handleSave, h]
  · rintro d rfl hc hp
    simp [modalSaveFlow, handleSave, handleSaveApplication, hc, hp]

/-- C1 witness: a form with an empty company name is rejected without a
request; a fully filled form issues the create with the entered
fields. -/
theorem save_requires_company_and_title_witness :
    modalSaveFlow none "2025-01-02T00:00:00Z"
        (some { company_name := some "", position_title := some "Engineer",
                job_url := none, location := none, salary := none,
                description := none, requirements := none, notes := none,
                status := none }) =
      ([], "Company name and position title are required") ∧
    modalSaveFlow none "2025-01-02T00:00:00Z"
        (some { company_name := some "Acme", position_title := some "Engineer",
                job_url := none, location := none, salary := none,
                description := none, requirements := none, notes := none,
                status := none }) =
      ([Request.createApplicationForm
          { company_name := some "Acme", position_title := some "Engineer",
            job_url := none, location := none, salary := none,
            description := none, requirements := none, notes := none,
            status := some "Applied" } "2025-01-02T00:00:00Z"], "") :=
  ⟨(save_requires_company_and_title none "2025-01-02T00:00:00Z" _).1 (Or.inl (by decide)),
   (save_requires_company_and_title none "2025-01-02T00:00:00Z" _).2 _ rfl
     (by decide) (by decide)⟩

/-- C2: in the scrape-and-create flow, an absent `application_deadline`
produces no deadline-creation request; every deadline-creation request
that is issued carries type `'application'` and the (normalised)
returned date — never a fabricated one. -/
theorem scrape_deadline_never_fabricated (toIso : String → String) (url : String)
    (jd : JobData) (hurl : isBlank url = false) :
    (jd.application_deadline = none →
      ∀ p : DeadlinePayload,
        Request.createDeadline p ∉ (handleScrape toIso url (Except.ok jd)).requests) ∧
    (∀ p : DeadlinePayload,
      Request.createDeadline p ∈ (handleScrape toIso url (Except.ok jd)).requests →
        ∃ s : String, jd.application_deadline = some s ∧ s ≠ "" ∧
          p = { deadline_type := "application", deadline_date := toIso s,
                description := "Application deadline", is_completed := false }) := by
  have hreq := handleScrape_ok_requests toIso url jd hurl
  constructor
  · intro habs p hp
    rw [hreq, habs] at hp
    simp only [List.append_nil, List.mem_append, List.mem_singleton] at hp
    rcases hp with hp | hp
    · cases hp
    · split at hp <;> simp at hp
  · intro p hp
    rw [hreq] at hp
    rcases hd : jd.application_deadline with _ | s
    · simp only [hd] at hp
      simp only [List.append_nil, List.mem_append, List.mem_singleton] at hp
      rcases hp with hp | hp
      · cases hp
      · split at hp <;> simp at hp
    · simp only [hd] at hp
      by_cases hs : s = ""
      · rw [if_pos hs] at hp
        simp only [List.append_nil, List.mem_append, List.mem_singleton] at hp
        rcases hp with hp | hp
        · cases hp
        · split at hp <;> simp at hp
      · rw [if_neg hs] at hp
        simp only [List.mem_append, List.mem_singleton] at hp
        rcases hp with (hp | hp) | hp
        · cases hp
        · split at hp <;> simp at hp
        · exact ⟨s, rfl, hs, by injection hp⟩

/-- C2 witness: with no returned deadline, only the application-create
request is issued (in particular no deadline-creation request). -/
theorem scrape_deadline_never_fabricated_witness :
    (handleScrape (fun s => s ++ "T00:00:00.000Z") "https://example.com/job"
        (Except.ok
          { company_name := some "Acme", position_title := some "Engineer",
            location := none, salary := none, job_url := none,
            description := none, requirements := none,
            clean_text_content := none, ai_thoughts := none,
            application_deadline := none })).requests =
      [Request.createApplication
        { company_name := some "Acme", position_title := some "Engineer",
          location := none, salary := none,
          job_url := "https://example.com/job", status := "Applied" }] ∧
    (∀ p : DeadlinePayload,
      Request.createDeadline p ∉
        (handleScrape (fun s => s ++ "T00:00:00.000Z") "https://example.com/job"
          (Except.ok
            { company_name := some "Acme", position_title := some "Engineer",
              location := none, salary := none, job_url := none,
              description := none, requirements := none,
              clean_text_content := none, ai_thoughts := none,
              application_deadline := none })).requests) :=
  ⟨by decide,
   (scrape_deadline_never_fabricated (fun s => s ++ "T00:00:00.000Z")
      "https://example.com/job" _ (by decide)).1 rfl⟩

/-- C3: when the scrape fails, `Home.handleScrape` issues no request at
all and shows the failure message, and `ApplicationModal.handleScrapeUrl`
shows the failure message (with the manual-entry hint) and pre-fills the
manual form with the raw entered URL as `job_url` and every other field
empty. -/
theorem scrape_failure_falls_back_to_manual (toIso : String → String)
    (st : ModalState) (msg : String) (hurl : isBlank st.jobUrl = false) :
    (handleScrape toIso st.jobUrl (Except.error msg)).requests = [] ∧
    (handleScrape toIso st.jobUrl (Except.error msg)).error = msg ∧
    handleScrapeUrl st (Except.error msg) =
      { st with
        error := msg ++ ". You can still add manually.",
        scrapedData := some
          { company_name := some "", position_title := some "",
            location := some "", salary := some "", description := some "",
            requirements := some "", notes := some "",
            job_url := some st.jobUrl, status := none } } := by
  refine ⟨?_, ?_, ?_⟩ <;> simp [handleScrape, handleScrapeUrl, hurl]

/-- C3 witness: a failed scrape of a concrete URL issues nothing, keeps
the failure message, and pre-fills only `job_url`. -/
theorem scrape_failure_falls_back_to_manual_witness :
    (handleScrape (fun s => s) "https://example.com/job"
        (Except.error "Scrape failed")).requests = [] ∧
    (handleScrape (fun s => s) "https://example.com/job"
        (Except.error "Scrape failed")).error = "Scrape failed" ∧
    handleScrapeUrl { jobUrl := "https://example.com/job", scrapedData := none, error := "" }
        (Except.error "Scrape failed") =
      { jobUrl := "https://example.com/job",
        error := "Scrape failed. You can still add manually.",
        scrapedData := some
          { company_name := some "", position_title := some "",
            location := some "", salary := some "", description := some "",
            requirements := some "", notes := some "",
            job_url := some "https://example.com/job", status := none } } :=
  scrape_failure_falls_back_to_manual (fun s => s)
    { jobUrl := "https://example.com/job", scrapedData := none, error := "" }
    "Scrape failed" (by decide)

/-- C4: each toggle sends an update whose `is_completed` is the
negation of the currently stored flag, and two successive toggles
compose to the identity on the stored deadline. -/
theorem toggle_twice_is_identity (d : Deadline) :
    handleToggleDeadline d = [Request.updateDeadline d.id (!d.is_completed)] ∧
    handleToggleDeadline (toggleOnce d) = [Request.updateDeadline d.id d.is_completed] ∧
    toggleOnce (toggleOnce d) = d := by
  refine ⟨rfl, ?_, ?_⟩ <;>
    simp [handleToggleDeadline, toggleOnce, applyDeadlineUpdate]

/-- C4 witness: toggling a concrete incomplete deadline sends `true`,
toggling the result sends `false` and restores the original row. -/
theorem toggle_twice_is_identity_witness :
    handleToggleDeadline
        { id := 3, deadline_type := "interview", deadline_date := 1000,
          description := "", is_completed := false } =
      [Request.updateDeadline 3 true] ∧
    toggleOnce (toggleOnce
        { id := 3, deadline_type := "interview", deadline_date := 1000,
          description := "", is_completed := false }) =
      { id := 3, deadline_type := "interview", deadline_date := 1000,
        description := "", is_completed := false } :=
  ⟨(toggle_twice_is_identity _).1,
   (toggle_twice_is_identity _).2.2⟩

/-- C5: the scrape-and-create flow always sends status `'Applied'`, and
the manual form substitutes `'Applied'` whenever the form data carries
no status (absent or empty). -/
theorem created_status_defaults_to_applied (toIso : String → String) (url : String)
    (jd : JobData) (d : ScrapedData) (hurl : isBlank url = false)
    (hstat : d.status = none ∨ d.status = some "")
    (hc : truthy d.company_name = true) (hp : truthy d.position_title = true) :
    (∀ p : AppPayload,
      Request.createApplication p ∈ (handleScrape toIso url (Except.ok jd)).requests →
        p.status = "Applied") ∧
    handleSave (some d) = SaveOutcome.saved { d with status := some "Applied" } := by
  constructor
  · intro p hp'
    rw [handleScrape_ok_requests toIso url jd hurl] at hp'
    simp only [List.mem_append, List.mem_singleton] at hp'
    rcases hp' with (hp' | hp') | hp'
    · simp only [Request.createApplication.injEq] at hp'
      rw [hp']
    · split at hp' <;> simp at hp'
    · rcases hd : jd.application_deadline with _ | s
      · simp only [hd] at hp'
        simp at hp'
      · simp only [hd] at hp'
        split at hp' <;> simp at hp'
  · have hj : jsOr d.status "Applied" = "Applied" := by
      rcases hstat with h | h <;> simp [jsOr, h]
    simp [handleSave, hc, hp, hj]

/-- C5 witness: a successful scrape issues the create with status
`'Applied'`, and a manual form without a status is saved with status
`'Applied'`. -/
theorem created_status_defaults_to_applied_witness :
    (∀ p : AppPayload,
      Request.createApplication p ∈
        (handleScrape (fun s => s) "https://example.com/job"
          (Except.ok
            { company_name := some "Acme", position_title := some "Engineer",
              location := none, salary := none, job_url := none,
              description := none, requirements := none,
              clean_text_content := none, ai_thoughts := none,
              application_deadline := none })).requests →
        p.status = "Applied") ∧
    handleSave (some
        { company_name := some "Acme", position_title := some "Engineer",
          job_url := none, location := none, salary := none,
          description := none, requirements := none, notes := none,
          status := none }) =
      SaveOutcome.saved
        { company_name := some "Acme", position_title := some "Engineer",
          job_url := none, location := none, salary := none,
          description := none, requirements := none, notes := none,
          status := some "Applied" } :=
  created_status_defaults_to_applied (fun s => s) "https://example.com/job" _ _
    (by decide) (Or.inl rfl) (by decide) (by decide)

/-- C6: a note create or update whose content is empty or whitespace
only issues no request (so the stored notes are unchanged); a non-blank
content is sent verbatim. -/
theorem note_content_must_be_nonblank (noteId freshId : Nat) (notes : List Note)
    (content : String) :
    (isBlank content = true →
      handleAddNote content = [] ∧ handleUpdateNote noteId content = [] ∧
      (handleAddNote content).foldl (applyNoteRequest freshId) notes = notes ∧
      (handleUpdateNote noteId content).foldl (applyNoteRequest freshId) notes = notes) ∧
    (isBlank content = false →
      handleAddNote content = [Request.createNote content] ∧
      handleUpdateNote noteId content = [Request.updateNote noteId content]) := by
  constructor
  · intro h
    refine ⟨?_, ?_, ?_, ?_⟩ <;> simp [handleAddNote, handleUpdateNote, h]
  · intro h
    constructor <;> simp [handleAddNote, handleUpdateNote, h]

/-- C6 witness: whitespace-only content issues nothing and leaves a
concrete notes list unchanged; real content is sent verbatim. -/
theorem note_content_must_be_nonblank_witness :
    (handleAddNote "  " = [] ∧ handleUpdateNote 7 "  " = [] ∧
      (handleAddNote "  ").foldl (applyNoteRequest 9) [{ id := 1, content := "hi" }] =
        [{ id := 1, content := "hi" }] ∧
      (handleUpdateNote 7 "  ").foldl (applyNoteRequest 9) [{ id := 1, content := "hi" }] =
        [{ id := 1, content := "hi" }]) ∧
    (handleAddNote "follow up" = [Request.createNote "follow up"] ∧
      handleUpdateNote 7 "follow up" = [Request.updateNote 7 "follow up"]) :=
  ⟨(note_content_must_be_nonblank 7 9 [{ id := 1, content := "hi" }] "  ").1 (by decide),
   (note_content_must_be_nonblank 7 9 [{ id := 1, content := "hi" }] "follow up").2
     (by decide)⟩

/-- Every reachable deadline-form state carries a type from the select
options. -/
theorem reachable_type_mem {nd : NewDeadline} (h : DeadlineFormReachable nd) :
    nd.deadline_type ∈ deadlineTypeOptions := by
  induction h with
  | init => decide
  | setType _ ht _ => exact ht
  | setDate s _ ih => exact ih
  | setDescription s _ ih => exact ih

/-- C7: a deadline create attempt with an empty date issues no request,
and every issued create carries a non-empty type from the select
options (the form starts at `'application'`), the ISO-normalised
entered date, and `is_completed := false`. -/
theorem deadline_create_requires_date_and_type (toIso : String → String)
    (nd : NewDeadline) (h : DeadlineFormReachable nd) :
    (nd.deadline_date = "" → handleAddDeadline toIso nd = []) ∧
    (∀ p : DeadlinePayload, Request.createDeadline p ∈ handleAddDeadline toIso nd →
      p.deadline_type ∈ deadlineTypeOptions ∧ p.deadline_type ≠ "" ∧
      p.deadline_date = toIso nd.deadline_date ∧ p.is_completed = false) := by
  constructor
  · intro hd
    simp [handleAddDeadline, hd]
  · intro p hp
    by_cases hd : nd.deadline_date = ""
    · simp [handleAddDeadline, hd] at hp
    · simp only [handleAddDeadline, hd, if_false, List.mem_singleton,
        Request.createDeadline.injEq, reduceIte] at hp
      subst hp
      have hm := reachable_type_mem h
      refine ⟨hm, ?_, rfl, rfl⟩
      intro he
      have he2 : nd.deadline_type = "" := he
      rw [he2] at hm
      revert hm
      decide

/-- C7 witness: a reachable form state with type `'interview'` and a
non-empty date issues a create whose type is a non-empty option value,
whose date is the normalised entered date, and which is not
completed. -/
theorem deadline_create_requires_date_and_type_witness :
    DeadlineFormReachable
      { deadline_type := "interview", deadline_date := "2025-03-01T09:00",
        description := "" } ∧
    ("interview" ∈ deadlineTypeOptions ∧ "interview" ≠ "" ∧
      "2025-03-01T09:00" = (fun s : String => s) "2025-03-01T09:00" ∧
      (false : Bool) = false) :=
  have hre : DeadlineFormReachable
      { deadline_type := "interview", deadline_date := "2025-03-01T09:00",
        description := "" } :=
    DeadlineFormReachable.setDate "2025-03-01T09:00"
      (DeadlineFormReachable.setType DeadlineFormReachable.init (by decide))
  ⟨hre,
   (deadline_create_requires_date_and_type (fun s => s) _ hre).2
     { deadline_type := "interview", deadline_date := "2025-03-01T09:00",
       description := "", is_completed := false } (by decide)⟩

/-- C8: no `JobDetail` operation's requests depend on the current time,
rendering a deadline row (which computes its overdue badge from
`getDaysUntilDeadline`) issues nothing, and the only operation that
sends an `is_completed` update for an existing deadline is the user's
toggle, with exactly the negation of the stored flag. -/
theorem only_user_toggle_changes_completion (toIso : String → String)
    (now now' : Int) (op : JobDetailOp) :
    jobDetailRequests toIso now op = jobDetailRequests toIso now' op ∧
    (∀ d : Deadline, jobDetailRequests toIso now (JobDetailOp.render d) = []) ∧
    (∀ r ∈ jobDetailRequests toIso now op, ∀ did b, r = Request.updateDeadline did b →
      ∃ d : Deadline, op = JobDetailOp.toggleDeadline d ∧ did = d.id ∧
        b = !d.is_completed) := by
  refine ⟨?_, fun d => rfl, ?_⟩
  · cases op <;> rfl
  · intro r hr did b hb
    cases op with
    | updateStatus s =>
        simp only [jobDetailRequests, List.mem_singleton] at hr
        subst hr; cases hb
    | deleteApplication =>
        simp only [jobDetailRequests, List.mem_singleton] at hr
        subst hr; cases hb
    | addNote c =>
        simp only [jobDetailRequests, handleAddNote] at hr
        split at hr
        · simp at hr
        · simp only [List.mem_singleton] at hr
          subst hr; cases hb
    | updateNote nid c =>
        simp only [jobDetailRequests, handleUpdateNote] at hr
        split at hr
        · simp at hr
        · simp only [List.mem_singleton] at hr
          subst hr; cases hb
    | deleteNote nid =>
        simp only [jobDetailRequests, List.mem_singleton] at hr
        subst hr; cases hb
    | addDeadline nd =>
        simp only [jobDetailRequests, handleAddDeadline] at hr
        split at hr
        · simp at hr
        · simp only [List.mem_singleton] at hr
          subst hr; cases hb
    | toggleDeadline d =>
        simp only [jobDetailRequests, handleToggleDeadline, List.mem_singleton] at hr
        subst hr
        injection hb with h1 h2
        exact ⟨d, rfl, h1.symm, h2.symm⟩
    | deleteDeadline did2 =>
        simp only [jobDetailRequests, List.mem_singleton] at hr
        subst hr; cases hb
    | render d =>
        simp only [jobDetailRequests, List.not_mem_nil] at hr

/-- C8 witness: toggling a concrete overdue, incomplete deadline issues
the same single request at two different times, and rendering it issues
nothing. -/
theorem only_user_toggle_changes_completion_witness :
    jobDetailRequests (fun s => s) 0
        (JobDetailOp.toggleDeadline
          { id := 4, deadline_type := "application", deadline_date := 100,
            description := "", is_completed := false }) =
      jobDetailRequests (fun s => s) 999999
        (JobDetailOp.toggleDeadline
          { id := 4, deadline_type := "application", deadline_date := 100,
            description := "", is_completed := false }) ∧
    jobDetailRequests (fun s => s) 999999
        (JobDetailOp.render
          { id := 4, deadline_type := "application", deadline_date := 100,
            description := "", is_completed := false }) = [] :=
  ⟨(only_user_toggle_changes_completion (fun s => s) 0 999999 _).1,
   (only_user_toggle_changes_completion (fun s => s) 999999 0
      (JobDetailOp.render
        { id := 4, deadline_type := "application", deadline_date := 100,
          description := "", is_completed := false })).2.1 _⟩

/-- C9 counterexample: on a deadlines list whose first uncompleted
entry is not the earliest-dated one, the sort key of
`filterAndSortApplications` (first uncompleted in stored order) differs
from `getNextDeadline` (earliest-dated uncompleted). -/
theorem next_deadline_definitions_disagree :
    sortKeyDeadline
        [{ id := 1, deadline_type := "application", deadline_date := 200,
           description := "", is_completed := false },
         { id := 2, deadline_type := "interview", deadline_date := 100,
           description := "", is_completed := false }] ≠
      getNextDeadline
        [{ id := 1, deadline_type := "application", deadline_date := 200,
           description := "", is_completed := false },
         { id := 2, deadline_type := "interview", deadline_date := 100,
           description := "", is_completed := false }] := by decide

/-- C9 (amended): on any deadlines list that is sorted by
`deadline_date` ascending, the first uncompleted deadline in stored
order equals the earliest-dated uncompleted deadline; on unsorted lists
the two definitions can differ. -/
theorem next_deadline_agrees_on_sorted (ds : List Deadline)
    (h : List.Sorted dateLe ds) :
    sortKeyDeadline ds = getNextDeadline ds := by
  unfold sortKeyDeadline getNextDeadline
  cases ds with
  | nil => rfl
  | cons a t =>
    have hs : List.Sorted dateLe ((a :: t).filter (fun d => !d.is_completed)) :=
      List.Pairwise.filter _ h
    rw [if_neg (by simp), List.Sorted.insertionSort_eq hs, find_eq_head_filter]

/-- C9 witness: on a concrete date-sorted list with a completed earlier
deadline, both definitions pick the same (earliest uncompleted)
entry. -/
theorem next_deadline_agrees_on_sorted_witness :
    List.Sorted dateLe
        [{ id := 1, deadline_type := "application", deadline_date := 100,
           description := "", is_completed := true },
         { id := 2, deadline_type := "interview", deadline_date := 200,
           description := "", is_completed := false }] ∧
    sortKeyDeadline
        [{ id := 1, deadline_type := "application", deadline_date := 100,
           description := "", is_completed := true },
         { id := 2, deadline_type := "interview", deadline_date := 200,
           description := "", is_completed := false }] =
      getNextDeadline
        [{ id := 1, deadline_type := "application", deadline_date := 100,
           description := "", is_completed := true },
         { id := 2, deadline_type := "interview", deadline_date := 200,
           description := "", is_completed := false }] :=
  ⟨by decide, next_deadline_agrees_on_sorted _ (by decide)⟩

/-- C10: the home page's upcoming-deadlines list has at most 10
entries; every entry is an input application paired with one of its own
uncompleted deadlines of minimal date among its uncompleted deadlines;
and the entries are ordered by that deadline date ascending. -/
theorem upcoming_deadlines_correct (apps : List Application) :
    (fetchUpcomingDeadlines apps).length ≤ 10 ∧
    (∀ e ∈ fetchUpcomingDeadlines apps,
      e.app ∈ apps ∧ e.nextDeadline ∈ e.app.deadlines ∧
      e.nextDeadline.is_completed = false ∧
      (∀ d ∈ e.app.deadlines, d.is_completed = false →
        e.nextDeadline.deadline_date ≤ d.deadline_date)) ∧
    (fetchUpcomingDeadlines apps).Pairwise upcomingLe := by
  unfold fetchUpcomingDeadlines
  refine ⟨List.length_take_le _ _, ?_, ?_⟩
  · intro e he
    have he1 := List.take_subset _ _ he
    have he2 := (List.mem_insertionSort upcomingLe).1 he1
    rw [List.mem_filterMap] at he2
    obtain ⟨app, happ, heq⟩ := he2
    rw [Option.map_eq_some'] at heq
    obtain ⟨nd, hhead, hend⟩ := heq
    subst hend
    have happs : app ∈ apps := (List.mem_filter.1 happ).1
    have hndmem := head_eq_some_mem hhead
    have hndfil := (List.mem_insertionSort dateLe).1 hndmem
    rw [List.mem_filter] at hndfil
    refine ⟨happs, hndfil.1, by simpa using hndfil.2, ?_⟩
    intro d hd hdc
    have hdfil : d ∈ app.deadlines.filter (fun x => !x.is_completed) :=
      List.mem_filter.2 ⟨hd, by simp [hdc]⟩
    have hdmem : d ∈ List.insertionSort dateLe
        (app.deadlines.filter (fun x => !x.is_completed)) :=
      (List.mem_insertionSort dateLe).2 hdfil
    have hle := sorted_head_rel_mem (List.sorted_insertionSort dateLe _) hhead hdmem
    exact hle
  · exact List.Pairwise.sublist (List.take_sublist _ _)
      (List.sorted_insertionSort upcomingLe _)

/-- C10 witness: on a concrete store answer the list evaluates to the
one application paired with its earliest uncompleted deadline, and the
theorem's bound and ordering hold there. -/
theorem upcoming_deadlines_correct_witness :
    fetchUpcomingDeadlines
        [{ id := 1, company_name := "Acme", position_title := "Engineer",
           status := "Applied",
           deadlines :=
             [{ id := 11, deadline_type := "application", deadline_date := 300,
                description := "", is_completed := false },
              { id := 12, deadline_type := "interview", deadline_date := 200,
                description := "", is_completed := false },
              { id := 13, deadline_type := "assessment", deadline_date := 100,
                description := "", is_completed := true }] }] =
      [{ app :=
          { id := 1, company_name := "Acme", position_title := "Engineer",
            status := "Applied",
            deadlines :=
              [{ id := 11, deadline_type := "application", deadline_date := 300,
                 description := "", is_completed := false },
               { id := 12, deadline_type := "interview", deadline_date := 200,
                 description := "", is_completed := false },
               { id := 13, deadline_type := "assessment", deadline_date := 100,
                 description := "", is_completed := true }] },
         nextDeadline :=
          { id := 12, deadline_type := "interview", deadline_date := 200,
            description := "", is_completed := false } }] ∧
    (fetchUpcomingDeadlines
        [{ id := 1, company_name := "Acme", position_title := "Engineer",
           status := "Applied",
           deadlines :=
             [{ id := 11, deadline_type := "application", deadline_date := 300,
                description := "", is_completed := false },
              { id := 12, deadline_type := "interview", deadline_date := 200,
                description := "", is_completed := false },
              { id := 13, deadline_type := "assessment", deadline_date := 100,
                description := "", is_completed := true }] }]).length ≤ 10 :=
  ⟨by decide, (upcoming_deadlines_correct _).1⟩

end AppTracker
